import Mathlib

set_option maxHeartbeats 1000000

/-!
Shallow embedding of the GitHub top-repositories ingestion pipeline
(`main.py` and `repo/repo.py`): the JSON data the code manipulates, the
per-repository enrichment (`_process_repository`), the crawl fan-out
(`get_repositories`), the request executor (`_make_request` with its
rate limiter and semaphore), the ClickHouse batch writer
(`save_repository` / `_flush_batch`) and the `main()` entry point.
Times are modeled as rationals, machine floats carrying exact values.
-/

/-- JSON values as returned by the GitHub API and manipulated by the
Python code: `None`, booleans, numbers, strings, lists and dicts
(insertion-ordered association lists, as Python dicts are). -/
inductive Json where
  | null
  | bool (b : Bool)
  | num (n : Int)
  | str (s : String)
  | arr (elems : List Json)
  | obj (fields : List (String × Json))

mutual

/-- Decidable equality on JSON values (written by hand: the nested
`List` occurrences defeat the automatic deriving). -/
def Json.decEq : (a b : Json) → Decidable (a = b)
  | .null, .null => .isTrue rfl
  | .bool a, .bool b =>
      if h : a = b then .isTrue (congrArg Json.bool h)
      else .isFalse (fun hh => h (Json.bool.inj hh))
  | .num a, .num b =>
      if h : a = b then .isTrue (congrArg Json.num h)
      else .isFalse (fun hh => h (Json.num.inj hh))
  | .str a, .str b =>
      if h : a = b then .isTrue (congrArg Json.str h)
      else .isFalse (fun hh => h (Json.str.inj hh))
  | .arr xs, .arr ys =>
      match Json.decEqList xs ys with
      | .isTrue h => .isTrue (congrArg Json.arr h)
      | .isFalse h => .isFalse (fun hh => h (Json.arr.inj hh))
  | .obj fs, .obj gs =>
      match Json.decEqFields fs gs with
      | .isTrue h => .isTrue (congrArg Json.obj h)
      | .isFalse h => .isFalse (fun hh => h (Json.obj.inj hh))
  | .null, .bool _ => .isFalse (fun h => Json.noConfusion h)
  | .null, .num _ => .isFalse (fun h => Json.noConfusion h)
  | .null, .str _ => .isFalse (fun h => Json.noConfusion h)
  | .null, .arr _ => .isFalse (fun h => Json.noConfusion h)
  | .null, .obj _ => .isFalse (fun h => Json.noConfusion h)
  | .bool _, .null => .isFalse (fun h => Json.noConfusion h)
  | .bool _, .num _ => .isFalse (fun h => Json.noConfusion h)
  | .bool _, .str _ => .isFalse (fun h => Json.noConfusion h)
  | .bool _, .arr _ => .isFalse (fun h => Json.noConfusion h)
  | .bool _, .obj _ => .isFalse (fun h => Json.noConfusion h)
  | .num _, .null => .isFalse (fun h => Json.noConfusion h)
  | .num _, .bool _ => .isFalse (fun h => Json.noConfusion h)
  | .num _, .str _ => .isFalse (fun h => Json.noConfusion h)
  | .num _, .arr _ => .isFalse (fun h => Json.noConfusion h)
  | .num _, .obj _ => .isFalse (fun h => Json.noConfusion h)
  | .str _, .null => .isFalse (fun h => Json.noConfusion h)
  | .str _, .bool _ => .isFalse (fun h => Json.noConfusion h)
  | .str _, .num _ => .isFalse (fun h => Json.noConfusion h)
  | .str _, .arr _ => .isFalse (fun h => Json.noConfusion h)
  | .str _, .obj _ => .isFalse (fun h => Json.noConfusion h)
  | .arr _, .null => .isFalse (fun h => Json.noConfusion h)
  | .arr _, .bool _ => .isFalse (fun h => Json.noConfusion h)
  | .arr _, .num _ => .isFalse (fun h => Json.noConfusion h)
  | .arr _, .str _ => .isFalse (fun h => Json.noConfusion h)
  | .arr _, .obj _ => .isFalse (fun h => Json.noConfusion h)
  | .obj _, .null => .isFalse (fun h => Json.noConfusion h)
  | .obj _, .bool _ => .isFalse (fun h => Json.noConfusion h)
  | .obj _, .num _ => .isFalse (fun h => Json.noConfusion h)
  | .obj _, .str _ => .isFalse (fun h => Json.noConfusion h)
  | .obj _, .arr _ => .isFalse (fun h => Json.noConfusion h)

/-- Decidable equality on lists of JSON values. -/
def Json.decEqList : (a b : List Json) → Decidable (a = b)
  | [], [] => .isTrue rfl
  | [], _ :: _ => .isFalse (fun h => List.noConfusion h)
  | _ :: _, [] => .isFalse (fun h => List.noConfusion h)
  | x :: xs, y :: ys =>
      match Json.decEq x y, Json.decEqList xs ys with
      | .isTrue h1, .isTrue h2 => .isTrue (by rw [h1, h2])
      | .isFalse h1, _ => .isFalse (by intro h; injection h; contradiction)
      | _, .isFalse h2 => .isFalse (by intro h; injection h; contradiction)

/-- Decidable equality on JSON object field lists. -/
def Json.decEqFields : (a b : List (String × Json)) → Decidable (a = b)
  | [], [] => .isTrue rfl
  | [], _ :: _ => .isFalse (fun h => List.noConfusion h)
  | _ :: _, [] => .isFalse (fun h => List.noConfusion h)
  | (k, v) :: xs, (k', v') :: ys =>
      match String.decEq k k', Json.decEq v v', Json.decEqFields xs ys with
      | .isTrue h0, .isTrue h1, .isTrue h2 => .isTrue (by rw [h0, h1, h2])
      | .isFalse h0, _, _ =>
          .isFalse (by intro h; injection h with hp ht; injection hp; contradiction)
      | _, .isFalse h1, _ =>
          .isFalse (by intro h; injection h with hp ht; injection hp; contradiction)
      | _, _, .isFalse h2 => .isFalse (by intro h; injection h; contradiction)

end

instance : DecidableEq Json := Json.decEq

instance {ε α : Type} [DecidableEq ε] [DecidableEq α] : DecidableEq (Except ε α)
  | .ok a, .ok b =>
      if h : a = b then .isTrue (congrArg Except.ok h)
      else .isFalse (fun hh => h (Except.ok.inj hh))
  | .error a, .error b =>
      if h : a = b then .isTrue (congrArg Except.error h)
      else .isFalse (fun hh => h (Except.error.inj hh))
  | .ok _, .error _ => .isFalse (fun h => Except.noConfusion h)
  | .error _, .ok _ => .isFalse (fun h => Except.noConfusion h)

/-- Python runtime errors the embedded code can raise. -/
inductive PyErr where
  | attributeError
deriving Repr, DecidableEq

/-- Python `d.get(key, default)`: on a dict it returns the stored value
(even when that value is `None`) if the key is present, and the default
otherwise; on any non-dict receiver — in particular `None` — the
attribute lookup of `.get` raises `AttributeError`. -/
def pyGet : Json → String → Json → Except PyErr Json
  | .obj fields, key, dflt => .ok (((fields.lookup key).getD dflt))
  | _, _, _ => .error .attributeError

/-- Python truthiness of a JSON value (`None`, `False`, `0`, `""`, `[]`
and `{}` are falsy). -/
def Json.truthy : Json → Bool
  | .null => false
  | .bool b => b
  | .num n => n != 0
  | .str s => !s.isEmpty
  | .arr elems => !elems.isEmpty
  | .obj fields => !fields.isEmpty

/-- Author key of one commit (`main.py` lines 154-160): the commit's
`author` value if truthy, keyed on its `login` (default `"Unknown"`);
otherwise `commit["commit"]["author"]["name"]` with defaults `{}`, `{}`
and `"Unknown"` along the chain. -/
def commit_author_key (commit : Json) : Except PyErr Json := do
  let author ← pyGet commit "author" (.obj [])
  if author.truthy then
    pyGet author "login" (.str "Unknown")
  else
    let commit_data ← pyGet commit "commit" (.obj [])
    let inner ← pyGet commit_data "author" (.obj [])
    pyGet inner "name" (.str "Unknown")

/-- One counting step of the Python dict update
`author_commits[k] = author_commits.get(k, 0) + 1` on an
insertion-ordered association list. -/
def bump_count (m : List (Json × Nat)) (k : Json) : List (Json × Nat) :=
  if m.any (fun p => decide (p.1 = k)) then
    m.map (fun p => if p.1 = k then (p.1, p.2 + 1) else p)
  else m ++ [(k, 1)]

/-- The `for commit in commits` aggregation loop of `_process_repository`
(`main.py` lines 153-162), threading the dict through the commit list. -/
def author_commits_aux (m : List (Json × Nat)) :
    List Json → Except PyErr (List (Json × Nat))
  | [] => .ok m
  | c :: cs => do
      let k ← commit_author_key c
      author_commits_aux (bump_count m k) cs

/-- Per-author commit counts aggregated from a commit list, starting
from the empty dict. -/
def author_commits (commits : List Json) : Except PyErr (List (Json × Nat)) :=
  author_commits_aux [] commits

/-- Count stored under key `k` in the aggregation dict (0 when absent). -/
def lookup_count (m : List (Json × Nat)) (k : Json) : Nat :=
  match m.find? (fun p => decide (p.1 = k)) with
  | some p => p.2
  | none => 0

/-- The `RepositoryAuthorCommitsNum` dataclass of `main.py`. Python
dataclasses do not enforce field annotations, so the `author` field holds
whatever JSON value was used as the dict key. -/
structure RepositoryAuthorCommitsNum where
  author : Json
  commits_num : Nat
deriving DecidableEq

/-- The `Repository` dataclass of `main.py`. Fields other than
`position` receive raw `dict.get` results, so they are JSON values. -/
structure Repository where
  name : Json
  owner : Json
  position : Int
  stars : Json
  watchers : Json
  forks : Json
  language : Json
  authors_commits_num_today : List RepositoryAuthorCommitsNum
deriving DecidableEq

/-- The body of `GithubReposScrapper._process_repository` (`main.py`
lines 144-180) after the commit fetch: extracts owner login and name,
aggregates commit authors, and builds the `Repository` dataclass with
the source's defaults (`""` for owner/name, `0` for the counters,
`repo_data.get("language", "") or "Unknown"` for the language). The
commit list is passed in because `_get_repository_commits` catches all
its own errors and returns `[]` on failure, so it never raises here. -/
def process_repository (commits : List Json) (repo_data : Json)
    (position : Int) : Except PyErr Repository := do
  let owner_obj ← pyGet repo_data "owner" (.obj [])
  let owner ← pyGet owner_obj "login" (.str "")
  let name ← pyGet repo_data "name" (.str "")
  let counts ← author_commits commits
  let stars ← pyGet repo_data "stargazers_count" (.num 0)
  let watchers ← pyGet repo_data "watchers_count" (.num 0)
  let forks ← pyGet repo_data "forks_count" (.num 0)
  let language_raw ← pyGet repo_data "language" (.str "")
  .ok {
    name := name
    owner := owner
    position := position
    stars := stars
    watchers := watchers
    forks := forks
    language := if language_raw.truthy then language_raw else .str "Unknown"
    authors_commits_num_today := counts.map (fun p => ⟨p.1, p.2⟩)
  }

/-- The four commits of the spec's aggregation example:
`[{login:"a"}, {login:"a"}, {commit:{author:{name:"b"}}}, {author:null}]`. -/
def c6_example_commits : List Json :=
  [ .obj [("author", .obj [("login", .str "a")])],
    .obj [("author", .obj [("login", .str "a")])],
    .obj [("commit", .obj [("author", .obj [("name", .str "b")])])],
    .obj [("author", .null)] ]

/-- The task list built by `get_repositories` (`main.py` lines 192-195):
one `_process_repository` call per fetched item, with the 1-based
position from `enumerate(top_repos, 1)` fixed at task-creation time,
before any dispatch. `commitsOf i` is the commit list obtained for the
item at 0-based index `i` (`_get_repository_commits` catches its own
errors, so the fetch is total). -/
def process_all (commitsOf : Nat → List Json) :
    Nat → List Json → List (Except PyErr Repository)
  | _, [] => []
  | i, item :: rest =>
      process_repository (commitsOf i) item ((i : Int) + 1) ::
        process_all commitsOf (i + 1) rest

/-- The result-collection loop of `get_repositories` (`main.py` lines
199-204): exceptions returned by
`asyncio.gather(..., return_exceptions=True)` are logged and skipped,
successful results are kept in completion order, which for `gather`
is the dispatch order of the task list. -/
def collect_valid : List (Except PyErr Repository) → List Repository
  | [] => []
  | .ok r :: rest => r :: collect_valid rest
  | .error _ :: rest => collect_valid rest

/-- `GithubReposScrapper.get_repositories` (`main.py` lines 182-211): an
empty top list returns `[]` early; otherwise every item is processed at
its pre-assigned position and the failing items are dropped. -/
def get_repositories (commitsOf : Nat → List Json) (top_repos : List Json) :
    List Repository :=
  if top_repos.isEmpty then []
  else collect_valid (process_all commitsOf 0 top_repos)

/-- Ten raw search items for the spec's crawl example: the items at
1-based positions 3 and 7 carry a `null` owner object, which makes
`_process_repository` raise `AttributeError`. -/
def c4_example_top : List Json :=
  [ .obj [], .obj [], .obj [("owner", Json.null)], .obj [], .obj [],
    .obj [], .obj [("owner", Json.null)], .obj [], .obj [], .obj [] ]

/-- Destination tables of `ClickHouseRepository._batch_queue`, in the
dict insertion order of `__init__` (`repo/repo.py` lines 17-21). -/
inductive ChTable where
  | repositories
  | repositories_authors_commits
  | repositories_positions
deriving DecidableEq

/-- The three per-table queues of `ClickHouseRepository._batch_queue`,
generic in the row type: the queueing logic never inspects rows. -/
structure BatchQueue (α : Type) where
  repositories : List α
  repositories_authors_commits : List α
  repositories_positions : List α
deriving DecidableEq

/-- Writer log events relevant to the flush/overflow policy. -/
inductive WriterLog where
  | insert_ok (table : ChTable) (rows : Nat)
  | insert_failed (table : ChTable)
  | overflow_dropped (table : ChTable) (dropped : Nat)
deriving DecidableEq

/-- Python slice `lst[-k:]`: the last `k` elements when `k > 0`; for
`k = 0` the slice `lst[-0:]` is `lst[0:]`, the whole list. -/
def pyTakeLast {α : Type} (k : Nat) (l : List α) : List α :=
  if k = 0 then l else l.drop (l.length - k)

/-- One iteration of the `_flush_batch` table loop (`repo/repo.py` lines
63-82) for a table whose queue holds `batch`: an empty queue is skipped;
otherwise the queue is swapped out (`current_batch = batch.copy();
queue = []`) and bulk-inserted — `insert_ok` says whether
`client.execute` succeeds. On failure the rows are extended back into
the now-empty queue, and if its length then exceeds
`3 * batch_size`, it is cut to `batch[-batch_size:]` with the dropped
count `len - batch_size` logged. The lock is held for the whole loop,
so no rows can arrive between the swap and the put-back. -/
def flush_table {α : Type} (table : ChTable) (insert_ok : Bool)
    (batch_size : Nat) (batch : List α) : List α × List WriterLog :=
  if batch.isEmpty then (batch, [])
  else if insert_ok then ([], [.insert_ok table batch.length])
  else if batch.length > batch_size * 3 then
    (pyTakeLast batch_size batch,
     [.insert_failed table, .overflow_dropped table (batch.length - batch_size)])
  else (batch, [.insert_failed table])

/-- The body of `_flush_batch` once the writer lock is held: the table
loop in dict insertion order, with `insert_ok` telling for each table
whether its bulk insert succeeds. -/
def flush_batch_locked {α : Type} (insert_ok : ChTable → Bool)
    (batch_size : Nat) (q : BatchQueue α) : BatchQueue α × List WriterLog :=
  let r1 := flush_table .repositories (insert_ok .repositories)
      batch_size q.repositories
  let r2 := flush_table .repositories_authors_commits
      (insert_ok .repositories_authors_commits) batch_size
      q.repositories_authors_commits
  let r3 := flush_table .repositories_positions
      (insert_ok .repositories_positions) batch_size q.repositories_positions
  (⟨r1.1, r2.1, r3.1⟩, r1.2 ++ r2.2 ++ r3.2)

/-- `_flush_batch` (`repo/repo.py` lines 61-82) starts with
`async with self._lock`. `asyncio.Lock` is not reentrant, so when the
calling task already holds the writer lock this acquisition can never
complete — the lock's only holder is the very task now waiting on it —
and the coroutine is stuck forever; `none` models that divergence. -/
def flush_batch {α : Type} (lock_held_by_caller : Bool)
    (insert_ok : ChTable → Bool) (batch_size : Nat) (q : BatchQueue α) :
    Option (BatchQueue α × List WriterLog) :=
  if lock_held_by_caller then none
  else some (flush_batch_locked insert_ok batch_size q)

/-- `save_repository` (`repo/repo.py` lines 24-59): the derived rows —
one repository row, one dated position row and one dated row per
aggregated author (lines 28-51) — are appended to their queues inside
`async with self._lock`; if any queue has then reached `batch_size`,
`await self._flush_batch()` runs while that lock is still held. Row
payloads are opaque to the queueing logic, so they are parameters. -/
def save_repository {α : Type} (insert_ok : ChTable → Bool) (batch_size : Nat)
    (repo_row pos_row : α) (author_rows : List α) (q : BatchQueue α) :
    Option (BatchQueue α × List WriterLog) :=
  let q' : BatchQueue α :=
    ⟨q.repositories ++ [repo_row],
     q.repositories_authors_commits ++ author_rows,
     q.repositories_positions ++ [pos_row]⟩
  if q'.repositories.length ≥ batch_size ∨
      q'.repositories_authors_commits.length ≥ batch_size ∨
      q'.repositories_positions.length ≥ batch_size then
    flush_batch true insert_ok batch_size q'
  else some (q', [])

/-- `flush_all` (`repo/repo.py` lines 84-85) awaits `_flush_batch` from
a caller that does not hold the writer lock, so the acquisition
succeeds. -/
def flush_all {α : Type} (insert_ok : ChTable → Bool) (batch_size : Nat)
    (q : BatchQueue α) : Option (BatchQueue α × List WriterLog) :=
  flush_batch false insert_ok batch_size q

/-- One scripted response for `_make_request`: `success` carries the
JSON body of a `< 400` response; `http_error` carries the HTTP status
(`≥ 400`, surfaced by `response.raise_for_status()` as
`aiohttp.ClientResponseError`), the optional `X-RateLimit-Reset` header
and the value of `datetime.datetime.now().timestamp()` read while
handling it; `transport` is an `aiohttp.ClientError` without a
status. -/
inductive ScriptedResponse where
  | success (body : Json)
  | http_error (status : Nat) (reset_header : Option Int) (now : ℚ)
  | transport

/-- Errors `_make_request` can propagate to its caller. -/
inductive RequestError where
  | client_response_error (status : Nat)
  | client_error
deriving DecidableEq

/-- The throttle wait computed on a 403 (`main.py` lines 98-100):
`max(0, reset - now) + 1`, with a missing `X-RateLimit-Reset` header
read as 0 by `int(e.headers.get("X-RateLimit-Reset", 0))`. -/
def wait_time (reset_header : Option Int) (now : ℚ) : ℚ :=
  max 0 (((reset_header.getD 0 : Int) : ℚ) - now) + 1

/-- Observable outcome of one logical `_make_request` call: the result,
how many HTTP attempts were made, and the sleeps performed between
attempts. -/
structure RequestTrace where
  result : Except RequestError Json
  attempts : Nat
  sleeps : List ℚ
deriving DecidableEq

/-- `_make_request` (`main.py` lines 80-117) run against a scripted
response sequence, one entry per attempt. A 403 whose computed wait
satisfies `wait > 0 and wait < 3600` is slept on and the whole request
re-entered on the next scripted response
(`return await self._make_request(endpoint, method, params)` — a
recursive call, not a bounded loop); every other HTTP error and any
transport error propagates without retry. `none` models exhausting the
script while the code is still retrying. -/
def make_request : List ScriptedResponse → Option RequestTrace
  | [] => none
  | .success body :: _ => some ⟨.ok body, 1, []⟩
  | .transport :: _ => some ⟨.error .client_error, 1, []⟩
  | .http_error status reset now :: rest =>
      if status = 403 ∧ 0 < wait_time reset now ∧ wait_time reset now < 3600 then
        match make_request rest with
        | some t => some ⟨t.result, t.attempts + 1, wait_time reset now :: t.sleeps⟩
        | none => none
      else some ⟨.error (.client_response_error status), 1, []⟩

/-- Number of leading scripted responses that are retryable 403s: the
recursion depth `_make_request` reaches before settling. -/
def count_leading_retryable : List ScriptedResponse → Nat
  | .http_error status reset now :: rest =>
      if status = 403 ∧ 0 < wait_time reset now ∧ wait_time reset now < 3600 then
        count_leading_retryable rest + 1
      else 0
  | _ => 0

/-- `RateLimiter` state (`main.py` lines 36-40): the configured rate,
the derived minimum interval and the last-grant timestamp. -/
structure RateLimiter where
  requests_per_second : Int
  interval : ℚ
  last_request_time : ℚ
deriving DecidableEq

/-- `RateLimiter.__init__`: `interval = 1 / rps` when `rps > 0`, else
`0`; `last_request_time` starts at `0.0`. -/
def mk_rate_limiter (rps : Int) : RateLimiter :=
  ⟨rps, if rps > 0 then 1 / (rps : ℚ) else 0, 0⟩

/-- `RateLimiter.acquire` (`main.py` lines 42-50) under a deterministic
event-loop clock: `now` is the loop time read after the lock is
granted. When the elapsed time since the last grant is below the
interval, the task sleeps exactly the difference, so the second clock
read — stored as the new `last_request_time` and returned here as the
grant time — equals `last + interval`; otherwise there is no sleep and
the grant time is `now`. The whole body runs inside
`async with self._lock`, so concurrent callers are serialized and
consecutive grants are modeled by sequential calls whose `now`
arguments are at least the previous grant time (the loop clock is
monotone). -/
def RateLimiter.acquire (st : RateLimiter) (now : ℚ) : ℚ × RateLimiter :=
  if now - st.last_request_time < st.interval then
    (st.last_request_time + st.interval,
     { st with last_request_time := st.last_request_time + st.interval })
  else (now, { st with last_request_time := now })

/-- State of `asyncio.Semaphore(max_concurrent_requests)`
(`main.py` line 72) together with the number of permits currently held
by `async with self._semaphore` blocks inside `_make_request`. -/
structure Semaphore where
  max_permits : Nat
  held : Nat
deriving DecidableEq

/-- Semaphore transitions: an acquire completes only while a permit is
free (`held < max_permits` — otherwise the caller blocks until a
release), and the `async with` exit releases one held permit on every
path out of the block — return, exception or cancellation. -/
inductive SemStep : Semaphore → Semaphore → Prop
  | acquire (s : Semaphore) (h : s.held < s.max_permits) :
      SemStep s ⟨s.max_permits, s.held + 1⟩
  | release (s : Semaphore) (h : 0 < s.held) :
      SemStep s ⟨s.max_permits, s.held - 1⟩

/-- States reachable from the freshly constructed semaphore
(`asyncio.Semaphore(n)`, no permits held). -/
inductive SemReachable (n : Nat) : Semaphore → Prop
  | init : SemReachable n ⟨n, 0⟩
  | step {s s' : Semaphore} :
      SemReachable n s → SemStep s s' → SemReachable n s'

/-- Environment of one `main()` run (`main.py` lines 248-291): the
configured GitHub token (`""` when unset), whether
`ClickHouseRepository.create`'s `SELECT 1` probe succeeds, and the crawl
outcome were the crawl reached. -/
structure MainEnv where
  access_token : String
  sink_ok : Bool
  crawl_result : List Repository

/-- The decision-relevant log events of `main()`. -/
inductive MainLog where
  | error_no_token
  | error_sink_init
  | warn_no_repositories
  | info_got_repositories (n : Nat)
  | info_done
deriving DecidableEq

/-- Observable outcome of a `main()` run: the process exit code, whether
`scrapper.get_repositories()` was ever called, and the logs. -/
structure MainRun where
  exit_code : Nat
  crawl_started : Bool
  logs : List MainLog
deriving DecidableEq

/-- `main()` (`main.py` lines 248-291). A missing token hits
`if not github_token: log.error(...); return` — a plain `return` inside
the `try`, which ends `asyncio.run(main())` normally, exit code 0. A
`ClickHouseRepository.create` failure is caught by the inner
`except`, logged, and also followed by a plain `return`. `sys.exit(1)`
sits only in the outer `except Exception` handler, which none of these
paths reaches. -/
def main_run (env : MainEnv) : MainRun :=
  if env.access_token.isEmpty then
    ⟨0, false, [.error_no_token]⟩
  else if !env.sink_ok then
    ⟨0, false, [.error_sink_init]⟩
  else if env.crawl_result.isEmpty then
    ⟨0, true, [.warn_no_repositories]⟩
  else
    ⟨0, true, [.info_got_repositories env.crawl_result.length, .info_done]⟩

/-- Unfolding `lookup_count` over a cons cell. -/
theorem lookup_count_cons (p : Json × Nat) (m : List (Json × Nat)) (k : Json) :
    lookup_count (p :: m) k = if p.1 = k then p.2 else lookup_count m k := by
  by_cases h : p.1 = k <;> simp [lookup_count, List.find?_cons, h]

/-- Bumping key `k` leaves the count of any other key unchanged
(map branch). -/
theorem lookup_count_map_bump (m : List (Json × Nat)) (k k' : Json)
    (h : k' ≠ k) :
    lookup_count (m.map (fun q => if q.1 = k then (q.1, q.2 + 1) else q)) k' =
      lookup_count m k' := by
  induction m with
  | nil => rfl
  | cons p rest ih =>
      rw [List.map_cons, lookup_count_cons, lookup_count_cons, ih]
      by_cases hp : p.1 = k
      · simp [hp, Ne.symm h]
      · simp [hp]

/-- Appending a fresh entry for key `k` leaves the count of any other
key unchanged (append branch). -/
theorem lookup_count_append_single (m : List (Json × Nat)) (k k' : Json)
    (h : k' ≠ k) :
    lookup_count (m ++ [(k, 1)]) k' = lookup_count m k' := by
  induction m with
  | nil => simp [lookup_count_cons, Ne.symm h, lookup_count]
  | cons p rest ih => rw [List.cons_append, lookup_count_cons, lookup_count_cons, ih]

/-- Bumping a present key `k` raises its count by one (map branch). -/
theorem lookup_count_map_bump_self (m : List (Json × Nat)) (k : Json)
    (h : m.any (fun q => decide (q.1 = k)) = true) :
    lookup_count (m.map (fun q => if q.1 = k then (q.1, q.2 + 1) else q)) k =
      lookup_count m k + 1 := by
  induction m with
  | nil => simp at h
  | cons p rest ih =>
      rw [List.map_cons, lookup_count_cons, lookup_count_cons]
      by_cases hp : p.1 = k
      · simp [hp]
      · simp only [List.any_cons, Bool.or_eq_true, decide_eq_true_eq] at h
        rcases h with h | h
        · exact absurd h hp
        · simp [hp, ih h]

/-- Inserting a fresh entry for an absent key `k` raises its count from
0 to 1 (append branch). -/
theorem lookup_count_append_single_self (m : List (Json × Nat)) (k : Json)
    (h : m.any (fun q => decide (q.1 = k)) = false) :
    lookup_count (m ++ [(k, 1)]) k = lookup_count m k + 1 := by
  induction m with
  | nil => simp [lookup_count, List.find?_cons]
  | cons p rest ih =>
      rw [List.any_cons] at h
      obtain ⟨h1, h2⟩ := Bool.or_eq_false_iff.mp h
      rw [List.cons_append, lookup_count_cons, lookup_count_cons]
      simp [of_decide_eq_false h1, ih h2]

/-- `bump_count` raises the bumped key's count by exactly one. -/
theorem lookup_count_bump_self (m : List (Json × Nat)) (k : Json) :
    lookup_count (bump_count m k) k = lookup_count m k + 1 := by
  rw [bump_count]
  by_cases h : m.any (fun q => decide (q.1 = k)) = true
  · rw [if_pos h, lookup_count_map_bump_self m k h]
  · rw [if_neg h, lookup_count_append_single_self m k (Bool.eq_false_iff.mpr h)]

/-- `bump_count` leaves every other key's count unchanged. -/
theorem lookup_count_bump_other (m : List (Json × Nat)) (k k' : Json)
    (h : k' ≠ k) :
    lookup_count (bump_count m k) k' = lookup_count m k' := by
  rw [bump_count]
  by_cases hh : m.any (fun q => decide (q.1 = k)) = true
  · rw [if_pos hh, lookup_count_map_bump m k k' h]
  · rw [if_neg hh, lookup_count_append_single m k k' h]

/-- The aggregation loop adds, for every key, exactly the number of
commits that resolve to that key. -/
theorem author_commits_aux_count (l : List Json) :
    ∀ (m m' : List (Json × Nat)), author_commits_aux m l = .ok m' →
    ∀ k, lookup_count m' k =
      lookup_count m k + l.countP (fun c => decide (commit_author_key c = .ok k)) := by
  induction l with
  | nil =>
      intro m m' h k
      simp only [author_commits_aux] at h
      cases h
      simp
  | cons c cs ih =>
      intro m m' h k
      rw [author_commits_aux] at h
      cases hck : commit_author_key c with
      | error e => rw [hck] at h; simp [Bind.bind, Except.bind] at h
      | ok kc =>
          rw [hck] at h
          simp only [Bind.bind, Except.bind] at h
          have hrec := ih (bump_count m kc) m' h k
          rw [hrec, List.countP_cons]
          by_cases hk : kc = k
          · subst hk
            rw [lookup_count_bump_self]
            simp [hck]
            omega
          · rw [lookup_count_bump_other m kc k (fun hh => hk hh.symm)]
            simp [hck, hk]

/-- A successful `_process_repository` call returns the snapshot at
exactly the position it was given. -/
theorem process_repository_position (commits : List Json) (d : Json) (p : Int)
    (r : Repository) (h : process_repository commits d p = .ok r) :
    r.position = p := by
  simp only [process_repository, Bind.bind, Except.bind] at h
  repeat' split at h
  all_goals first
    | exact Except.noConfusion h
    | (cases h; rfl)

/-- Structure of the crawl fan-out from an arbitrary starting index:
every collected snapshot originates from a success at its own index,
positions are strictly increasing and bounded, and the collected length
counts the successes. -/
theorem collect_valid_process_all (commitsOf : Nat → List Json) :
    ∀ (l : List Json) (n : Nat),
      (∀ r ∈ collect_valid (process_all commitsOf n l),
          (n : Int) + 1 ≤ r.position ∧ r.position ≤ (n : Int) + l.length ∧
          ∃ i, ∃ hi : i < l.length,
            process_repository (commitsOf (n + i)) (l.get ⟨i, hi⟩)
              ((n : Int) + i + 1) = .ok r)
      ∧ List.Pairwise (· < ·)
          ((collect_valid (process_all commitsOf n l)).map (·.position))
      ∧ (collect_valid (process_all commitsOf n l)).length =
          (process_all commitsOf n l).countP (fun e => e.isOk) := by
  intro l
  induction l with
  | nil =>
      intro n
      refine ⟨?_, ?_, ?_⟩ <;> simp [process_all, collect_valid]
  | cons item rest ih =>
      intro n
      have hstep : process_all commitsOf n (item :: rest) =
          process_repository (commitsOf n) item ((n : Int) + 1) ::
            process_all commitsOf (n + 1) rest := rfl
      obtain ⟨ihmem, ihpair, ihlen⟩ := ih (n + 1)
      cases hpr : process_repository (commitsOf n) item ((n : Int) + 1) with
      | error e =>
          have hcv : collect_valid (process_all commitsOf n (item :: rest)) =
              collect_valid (process_all commitsOf (n + 1) rest) := by
            rw [hstep, hpr, collect_valid]
          refine ⟨?_, ?_, ?_⟩
          · intro r hr
            rw [hcv] at hr
            obtain ⟨hlo, hhi, i, hi, hok⟩ := ihmem r hr
            refine ⟨by push_cast at hlo ⊢; omega,
              by push_cast [List.length_cons] at hhi ⊢; omega,
              i + 1, by simpa using hi, ?_⟩
            have harith : (n : Int) + ((i + 1 : Nat) : Int) + 1 =
                ((n + 1 : Nat) : Int) + (i : Int) + 1 := by push_cast; ring
            have hidx : (item :: rest).get ⟨i + 1, by simpa using hi⟩ =
                rest.get ⟨i, hi⟩ := rfl
            rw [hidx, harith, show n + (i + 1) = (n + 1) + i by omega]
            exact hok
          · rw [hcv]; exact ihpair
          · rw [hcv, hstep, hpr]
            simp only [List.countP_cons]
            rw [ihlen]
            simp [Except.isOk, Except.toBool]
      | ok r0 =>
          have hcv : collect_valid (process_all commitsOf n (item :: rest)) =
              r0 :: collect_valid (process_all commitsOf (n + 1) rest) := by
            rw [hstep, hpr, collect_valid]
          have hpos0 : r0.position = (n : Int) + 1 :=
            process_repository_position _ _ _ _ hpr
          refine ⟨?_, ?_, ?_⟩
          · intro r hr
            rw [hcv] at hr
            rcases List.mem_cons.mp hr with hr0 | hrrest
            · subst hr0
              refine ⟨by omega, by simp; omega, 0, by simp, ?_⟩
              simpa using hpr
            · obtain ⟨hlo, hhi, i, hi, hok⟩ := ihmem r hrrest
              refine ⟨by push_cast at hlo ⊢; omega,
                by push_cast [List.length_cons] at hhi ⊢; omega,
                i + 1, by simpa using hi, ?_⟩
              have harith : (n : Int) + ((i + 1 : Nat) : Int) + 1 =
                  ((n + 1 : Nat) : Int) + (i : Int) + 1 := by push_cast; ring
              have hidx : (item :: rest).get ⟨i + 1, by simpa using hi⟩ =
                  rest.get ⟨i, hi⟩ := rfl
              rw [hidx, harith, show n + (i + 1) = (n + 1) + i by omega]
              exact hok
          · rw [hcv, List.map_cons, List.pairwise_cons]
            refine ⟨?_, ihpair⟩
            intro b hb
            obtain ⟨r', hr', hb'⟩ := List.mem_map.mp hb
            obtain ⟨hlo, _, _⟩ := ihmem r' hr'
            rw [← hb', hpos0]
            push_cast at hlo
            omega
          · rw [hcv, hstep, hpr]
            simp only [List.countP_cons, List.length_cons]
            rw [ihlen]
            simp [Except.isOk, Except.toBool]

/-- Claim C6: `_process_repository` aggregates per-author commit counts
by keying each commit on the attributed account's login when the
commit's author object is present (and truthy), else on the raw commit
metadata's author display name, else on the literal "Unknown"; counts
are summed per distinct key, the resulting count of every key is
independent of commit iteration order, and the spec's example
`[{login:"a"}, {login:"a"}, {commit:{author:{name:"b"}}}, {author:null}]`
yields exactly the counts a: 2, b: 1, Unknown: 1. -/
theorem c6_author_commit_aggregation :
    (∀ (l : List Json) (m : List (Json × Nat)) (k : Json),
        author_commits l = .ok m →
        lookup_count m k = l.countP (fun c => decide (commit_author_key c = .ok k)))
    ∧ (∀ (l l' : List Json) (m m' : List (Json × Nat)),
        l.Perm l' → author_commits l = .ok m → author_commits l' = .ok m' →
        ∀ k, lookup_count m k = lookup_count m' k)
    ∧ author_commits c6_example_commits =
        .ok [(.str "a", 2), (.str "b", 1), (.str "Unknown", 1)] := by
  have base : ∀ (l : List Json) (m : List (Json × Nat)) (k : Json),
      author_commits l = .ok m →
      lookup_count m k = l.countP (fun c => decide (commit_author_key c = .ok k)) := by
    intro l m k h
    have hc := author_commits_aux_count l [] m h k
    simpa [lookup_count] using hc
  refine ⟨base, ?_, by rfl⟩
  intro l l' m m' hperm h h' k
  rw [base l m k h, base l' m' k h']
  exact hperm.countP_eq _

/-- Witness for C6: the aggregation theorem applied to the spec's
four-commit example at the key "a". -/
theorem c6_witness :
    lookup_count [(Json.str "a", 2), (Json.str "b", 1), (Json.str "Unknown", 1)]
        (Json.str "a") =
      c6_example_commits.countP
        (fun c => decide (commit_author_key c = .ok (Json.str "a"))) ∧
    c6_example_commits.countP
        (fun c => decide (commit_author_key c = .ok (Json.str "a"))) = 2 :=
  ⟨c6_author_commit_aggregation.1 c6_example_commits _ _ (by rfl), by rfl⟩

/-- Counterexample to C10 as stated: a raw item whose `owner` field is
present but `null` makes `_process_repository` raise `AttributeError`
(`repo_data.get("owner", {})` returns `None`, and `None.get("login", "")`
raises), so the call does not return a snapshot even though the commit
list was obtained. -/
theorem c10_counterexample :
    process_repository [] (Json.obj [("owner", Json.null)]) 1 =
      .error .attributeError := by rfl

/-- Claim C10 amended: once the commit list is obtained, and given that
the raw item's `owner` field is either absent or an object (rather than
`null`), `_process_repository` returns a snapshot without raising; for
absent fields the defaults hold — owner login and name become the empty
string, the counters 0 and the language "Unknown" — a `null` language
is likewise mapped to "Unknown", while a `null` counter field is passed
through as `null` rather than defaulting to 0. -/
theorem c10_process_repository_defaults :
    (∀ (fs : List (String × Json)) (commits : List Json) (p : Int)
        (m : List (Json × Nat)),
        (fs.lookup "owner" = none ∨ ∃ os, fs.lookup "owner" = some (.obj os)) →
        author_commits commits = .ok m →
        ∃ r, process_repository commits (.obj fs) p = .ok r ∧ r.position = p)
    ∧ (∀ p : Int, process_repository [] (.obj []) p =
        .ok ⟨.str "", .str "", p, .num 0, .num 0, .num 0, .str "Unknown", []⟩)
    ∧ (∀ p : Int, ∃ r,
        process_repository [] (.obj [("language", Json.null)]) p = .ok r ∧
          r.language = .str "Unknown")
    ∧ (∀ p : Int, ∃ r,
        process_repository [] (.obj [("stargazers_count", Json.null)]) p = .ok r ∧
          r.stars = Json.null) := by
  refine ⟨?_, fun p => rfl, fun p => ⟨_, rfl, rfl⟩, fun p => ⟨_, rfl, rfl⟩⟩
  intro fs commits p m howner hm
  rcases howner with h | ⟨os, h⟩ <;>
    simp [process_repository, pyGet, h, hm, Bind.bind, Except.bind]

/-- Witness for C10: the amended theorem applied to the empty raw item
with no commits at position 5. -/
theorem c10_witness :
    ∃ r, process_repository [] (.obj []) 5 = .ok r ∧ r.position = 5 :=
  c10_process_repository_defaults.1 [] [] 5 [] (Or.inl rfl) rfl

/-- Claim C4: every snapshot returned by `get_repositories` comes from a
successfully processed fetched item at its pre-assigned 1-based
position (fixed at task-creation time, before dispatch), the returned
positions are strictly increasing — hence unique — and bounded by the
fetched count, and the number of returned snapshots equals the number
of items whose enrichment did not raise; failing items are excluded. -/
theorem c4_crawl_positions (commitsOf : Nat → List Json)
    (top_repos : List Json) :
    (∀ r ∈ get_repositories commitsOf top_repos,
        1 ≤ r.position ∧ r.position ≤ top_repos.length ∧
        ∃ i, ∃ hi : i < top_repos.length,
          process_repository (commitsOf i) (top_repos.get ⟨i, hi⟩)
              ((i : Int) + 1) = .ok r ∧
            r.position = (i : Int) + 1)
    ∧ List.Pairwise (· < ·)
        ((get_repositories commitsOf top_repos).map (·.position))
    ∧ List.Pairwise (· ≠ ·)
        ((get_repositories commitsOf top_repos).map (·.position))
    ∧ (get_repositories commitsOf top_repos).length =
        (process_all commitsOf 0 top_repos).countP (fun e => e.isOk) := by
  by_cases hempty : top_repos.isEmpty
  · have h1 : get_repositories commitsOf top_repos = [] := by
      rw [get_repositories, if_pos hempty]
    have h2 : top_repos = [] := List.isEmpty_iff.mp hempty
    subst h2
    refine ⟨?_, ?_, ?_, ?_⟩ <;> simp [h1, process_all]
  · have h1 : get_repositories commitsOf top_repos =
        collect_valid (process_all commitsOf 0 top_repos) := by
      rw [get_repositories, if_neg hempty]
    obtain ⟨hmem, hpair, hlen⟩ := collect_valid_process_all commitsOf top_repos 0
    refine ⟨?_, by rw [h1]; exact hpair, ?_, by rw [h1]; exact hlen⟩
    · intro r hr
      rw [h1] at hr
      obtain ⟨hlo, hhi, i, hi, hok⟩ := hmem r hr
      have hpos := process_repository_position _ _ _ _ hok
      refine ⟨by push_cast at hlo ⊢; omega, by push_cast at hhi ⊢; omega,
        i, hi, ?_, ?_⟩
      · simpa using hok
      · simpa using hpos
    · rw [h1]
      exact hpair.imp (fun hlt => ne_of_lt hlt)

/-- Witness for C4: the spec's scenario — ten fetched items with the
items at positions 3 and 7 raising during enrichment — yields exactly
eight snapshots carrying their original positions 1, 2, 4, 5, 6, 8, 9,
10, strictly increasing; the bound from the theorem holds for the first
returned snapshot. -/
theorem c4_witness :
    List.Pairwise (· < ·)
      ((get_repositories (fun _ => []) c4_example_top).map (·.position)) ∧
    (get_repositories (fun _ => []) c4_example_top).map (·.position) =
      [1, 2, 4, 5, 6, 8, 9, 10] ∧
    (get_repositories (fun _ => []) c4_example_top).length = 8 ∧
    (1 : Int) ≤
      (Repository.mk (.str "") (.str "") 1 (.num 0) (.num 0) (.num 0)
        (.str "Unknown") []).position :=
  ⟨(c4_crawl_positions (fun _ => []) c4_example_top).2.1, by rfl, by rfl,
    ((c4_crawl_positions (fun _ => []) c4_example_top).1
      (Repository.mk (.str "") (.str "") 1 (.num 0) (.num 0) (.num 0)
        (.str "Unknown") [])
      (by decide)).1⟩

/-- Claim C1 (the code deadlocks instead): when the rows appended by
`save_repository` bring at least one table's queue to the configured
batch size, the call does trigger `_flush_batch` — but `_flush_batch`
re-acquires the non-reentrant `asyncio.Lock` the save call is still
holding, so the save call blocks forever and never completes (`none`);
below the threshold the call completes with the rows appended and no
flush. -/
theorem c1_save_flush_deadlock {α : Type} (insert_ok : ChTable → Bool)
    (batch_size : Nat) (repo_row pos_row : α) (author_rows : List α)
    (q : BatchQueue α) :
    (q.repositories.length + 1 ≥ batch_size ∨
        q.repositories_authors_commits.length + author_rows.length ≥ batch_size ∨
        q.repositories_positions.length + 1 ≥ batch_size →
      save_repository insert_ok batch_size repo_row pos_row author_rows q = none)
    ∧ (q.repositories.length + 1 < batch_size →
        q.repositories_authors_commits.length + author_rows.length < batch_size →
        q.repositories_positions.length + 1 < batch_size →
        save_repository insert_ok batch_size repo_row pos_row author_rows q =
          some (⟨q.repositories ++ [repo_row],
                 q.repositories_authors_commits ++ author_rows,
                 q.repositories_positions ++ [pos_row]⟩, [])) := by
  constructor
  · intro h
    rw [save_repository]
    rw [if_pos (by simpa [List.length_append] using h)]
    rfl
  · intro h1 h2 h3
    rw [save_repository]
    rw [if_neg (by simp [List.length_append]; omega)]

/-- Witness for C1: with batch size 1 the very first save reaches the
threshold and the call diverges. -/
theorem c1_witness :
    save_repository (α := Nat) (fun _ => true) 1 7 8 [] ⟨[], [], []⟩ = none :=
  (c1_save_flush_deadlock (fun _ => true) 1 7 8 [] ⟨[], [], []⟩).1
    (Or.inl (by decide))

/-- Claim C5: when a table's bulk insert fails during a flush, the
swapped-out rows are placed back into that table's (empty) queue rather
than discarded; if the retained queue length then exceeds three times
the batch size, the queue is cut to its most recent `batch_size`
entries and the dropped count `length - batch_size` is logged, and
otherwise the queue is exactly the original batch; the whole-writer
flush applies this per-table step to each of the three queues. -/
theorem c5_requeue_and_overflow {α : Type} (batch_size : Nat)
    (hbs : 0 < batch_size) (table : ChTable) (batch : List α)
    (hne : batch ≠ []) :
    ((flush_table table false batch_size batch).1 =
        if batch.length > batch_size * 3
        then batch.drop (batch.length - batch_size) else batch)
    ∧ (¬ batch.length > batch_size * 3 →
        flush_table table false batch_size batch =
          (batch, [.insert_failed table]))
    ∧ (batch.length > batch_size * 3 →
        (flush_table table false batch_size batch).1.length = batch_size ∧
        (flush_table table false batch_size batch).2 =
          [.insert_failed table,
           .overflow_dropped table (batch.length - batch_size)])
    ∧ (∀ (insert_ok : ChTable → Bool) (q : BatchQueue α),
        (flush_batch_locked insert_ok batch_size q).1.repositories =
            (flush_table .repositories (insert_ok .repositories)
              batch_size q.repositories).1 ∧
          (flush_batch_locked insert_ok batch_size q).1.repositories_authors_commits =
            (flush_table .repositories_authors_commits
              (insert_ok .repositories_authors_commits) batch_size
              q.repositories_authors_commits).1 ∧
          (flush_batch_locked insert_ok batch_size q).1.repositories_positions =
            (flush_table .repositories_positions
              (insert_ok .repositories_positions) batch_size
              q.repositories_positions).1) := by
  have hbool : batch.isEmpty = false := by
    cases batch with
    | nil => exact absurd rfl hne
    | cons a l => rfl
  refine ⟨?_, ?_, ?_, fun insert_ok q => ⟨rfl, rfl, rfl⟩⟩
  · rw [flush_table, hbool]
    by_cases hover : batch.length > batch_size * 3
    · simp only [Bool.false_eq_true, if_false, if_pos hover]
      rw [pyTakeLast, if_neg (Nat.pos_iff_ne_zero.mp hbs)]
    · simp [hover]
  · intro hover
    rw [flush_table, hbool]
    simp [hover]
  · intro hover
    constructor
    · rw [flush_table, hbool]
      simp only [Bool.false_eq_true, if_false, if_pos hover]
      rw [pyTakeLast, if_neg (Nat.pos_iff_ne_zero.mp hbs)]
      rw [List.length_drop]
      omega
    · rw [flush_table, hbool]
      simp [hover]

/-- Witness for C5: with batch size 1, a failed insert of the 4-row
batch [1, 2, 3, 4] retains only the most recent entry [4] and logs a
drop count of 3. -/
theorem c5_witness :
    (0 < 1 ∧ ([1, 2, 3, 4] : List Nat) ≠ []) ∧
    flush_table ChTable.repositories false 1 ([1, 2, 3, 4] : List Nat) =
      ([4], [.insert_failed .repositories,
             .overflow_dropped .repositories 3]) := by
  refine ⟨⟨by decide, by decide⟩, ?_⟩
  have h := (c5_requeue_and_overflow 1 (by decide) ChTable.repositories
    ([1, 2, 3, 4] : List Nat) (by decide)).2.2.1 (by decide)
  have h2 := h.2
  have h1 : (flush_table ChTable.repositories false 1
      ([1, 2, 3, 4] : List Nat)).1 = [4] := by rfl
  exact Prod.ext h1 (by simpa using h2)

/-- Counterexample to C2 as stated: against the response sequence
"retryable 403 (reset before now, wait 1s), retryable 403, success" the
executor makes three attempts for one logical request — the recursive
retry is re-entered on each retryable 403 — contradicting "at most two
attempts are made for one logical request". -/
theorem c2_counterexample :
    make_request
      [ .http_error 403 (some 0) 10, .http_error 403 (some 0) 20,
        .success .null ] =
      some ⟨.ok .null, 3, [1, 1]⟩ := by
  have hw1 : wait_time (some 0) 10 = 1 := by
    rw [wait_time]; norm_num
  have hw2 : wait_time (some 0) 20 = 1 := by
    rw [wait_time]; norm_num
  rw [make_request, if_pos (by rw [hw1]; norm_num)]
  rw [make_request, if_pos (by rw [hw2]; norm_num)]
  rw [make_request]
  rw [hw1, hw2]

/-- Claim C2 amended: on a 403 the executor reads the rate-limit-reset
header, computes `wait = max(0, reset - now) + 1` (always positive, so
the `wait > 0` guard never blocks a retry); if `wait < 3600` it sleeps
`wait` and re-enters the identical request recursively — not once but on
every retryable 403, so the attempt count is one more than the number
of leading retryable 403 responses, unbounded in the response
sequence; when `wait ≥ 3600` (or the status is not 403) the error
propagates with exactly one attempt and no retry. -/
theorem c2_retry_recursion_unbounded :
    (∀ (reset_header : Option Int) (now : ℚ), 0 < wait_time reset_header now)
    ∧ (∀ (status : Nat) (reset_header : Option Int) (now : ℚ)
          (rest : List ScriptedResponse),
        status ≠ 403 ∨ wait_time reset_header now ≥ 3600 →
        make_request (.http_error status reset_header now :: rest) =
          some ⟨.error (.client_response_error status), 1, []⟩)
    ∧ (∀ (reset_header : Option Int) (now : ℚ) (rest : List ScriptedResponse),
        wait_time reset_header now < 3600 →
        make_request (.http_error 403 reset_header now :: rest) =
          (make_request rest).map
            (fun t => ⟨t.result, t.attempts + 1,
                       wait_time reset_header now :: t.sleeps⟩))
    ∧ (∀ (script : List ScriptedResponse) (t : RequestTrace),
        make_request script = some t →
        t.attempts = count_leading_retryable script + 1 ∧
        t.sleeps.length = count_leading_retryable script) := by
  have hpos : ∀ (reset_header : Option Int) (now : ℚ),
      0 < wait_time reset_header now := by
    intro r now
    rw [wait_time]
    have : (0 : ℚ) ≤ max 0 (((r.getD 0 : Int) : ℚ) - now) := le_max_left _ _
    linarith
  refine ⟨hpos, ?_, ?_, ?_⟩
  · intro status reset now rest h
    rw [make_request, if_neg ?_]
    rcases h with h | h
    · exact fun hc => h hc.1
    · exact fun hc => absurd hc.2.2 (not_lt.mpr h)
  · intro reset now rest h
    rw [make_request, if_pos ⟨rfl, hpos reset now, h⟩]
    cases make_request rest with
    | none => rfl
    | some t => rfl
  · intro script
    induction script with
    | nil => intro t h; exact absurd h (by rw [make_request]; simp)
    | cons resp rest ih =>
        intro t h
        cases resp with
        | success body =>
            rw [make_request] at h
            cases h
            constructor <;> rfl
        | transport =>
            rw [make_request] at h
            cases h
            constructor <;> rfl
        | http_error status reset now =>
            rw [make_request] at h
            by_cases hc : status = 403 ∧ 0 < wait_time reset now ∧
                wait_time reset now < 3600
            · rw [if_pos hc] at h
              cases hrest : make_request rest with
              | none => rw [hrest] at h; exact absurd h (by simp)
              | some t' =>
                  rw [hrest] at h
                  cases h
                  obtain ⟨ha, hs⟩ := ih t' hrest
                  rw [count_leading_retryable, if_pos hc]
                  exact ⟨by simp [ha], by simp [hs]⟩
            · rw [if_neg hc] at h
              cases h
              rw [count_leading_retryable, if_neg hc]
              constructor <;> rfl

/-- Witness for C2: a non-403 HTTP error propagates after a single
attempt with no retry. -/
theorem c2_witness :
    make_request [ScriptedResponse.http_error 404 none 0] =
      some ⟨.error (.client_response_error 404), 1, []⟩ :=
  c2_retry_recursion_unbounded.2.1 404 none 0 [] (Or.inl (by decide))

/-- Claim C9: on a 403 response that lacks the rate-limit-reset header
the executor reads the reset time as 0, so for any non-negative current
timestamp the computed wait is exactly `max(0, 0 - now) + 1 = 1`
second, and the request is slept on for 1 second and retried rather
than the error being propagated. -/
theorem c9_missing_reset_header :
    (∀ now : ℚ, 0 ≤ now → wait_time none now = 1)
    ∧ (∀ (now : ℚ) (rest : List ScriptedResponse) (t : RequestTrace),
        0 ≤ now → make_request rest = some t →
        make_request (.http_error 403 none now :: rest) =
          some ⟨t.result, t.attempts + 1, 1 :: t.sleeps⟩) := by
  have hw : ∀ now : ℚ, 0 ≤ now → wait_time none now = 1 := by
    intro now h
    rw [wait_time]
    have hmax : max 0 (((Option.getD (none : Option Int) 0 : Int) : ℚ) - now) = 0 := by
      apply max_eq_left
      simp
      linarith
    rw [hmax]
    norm_num
  refine ⟨hw, ?_⟩
  intro now rest t h hrest
  rw [make_request, if_pos ⟨rfl, by rw [hw now h]; norm_num⟩]
  rw [hrest, hw now h]

/-- Witness for C9: a header-less 403 at timestamp 0 followed by a
success yields a 1-second sleep and exactly one retry. -/
theorem c9_witness :
    make_request [ScriptedResponse.http_error 403 none 0,
                  ScriptedResponse.success .null] =
      some ⟨.ok .null, 2, [1]⟩ :=
  c9_missing_reset_header.2 0 [ScriptedResponse.success .null]
    ⟨.ok .null, 1, []⟩ (by norm_num) (by rfl)

/-- Claim C7: for `requests_per_second = R > 0` the configured interval
is `1/R`, and any two consecutive grants of `acquire` — sequential
because the timestamp read, the sleep and the timestamp update all run
under the single mutual-exclusion lock — are separated by at least the
interval, provided the monotone loop clock at the second call is not
before the first grant; for `R ≤ 0` the interval is 0 and `acquire`
never delays: it grants at the current time immediately. -/
theorem c7_pacing_gate_spacing :
    (∀ R : Int, 0 < R → (mk_rate_limiter R).interval = 1 / (R : ℚ))
    ∧ (∀ (st : RateLimiter) (now1 now2 : ℚ) (g1 : ℚ) (st1 : RateLimiter),
        0 ≤ st.interval → st.acquire now1 = (g1, st1) → g1 ≤ now2 →
        (st1.acquire now2).1 - g1 ≥ st.interval)
    ∧ (∀ R : Int, R ≤ 0 → (mk_rate_limiter R).interval = 0)
    ∧ (∀ (st : RateLimiter) (now : ℚ), st.interval = 0 →
        st.last_request_time ≤ now → (st.acquire now).1 = now) := by
  refine ⟨?_, ?_, ?_, ?_⟩
  · intro R h
    rw [mk_rate_limiter]
    simp only
    rw [if_pos h]
  · intro st now1 now2 g1 st1 hi hacq h2
    rw [RateLimiter.acquire] at hacq
    split_ifs at hacq with h1
    · cases hacq
      rw [RateLimiter.acquire]
      split_ifs with hb
      · simp
      · simp only
        simp only at hb
        push_neg at hb
        linarith
    · cases hacq
      rw [RateLimiter.acquire]
      split_ifs with hb
      · simp
      · simp only
        simp only at hb
        push_neg at hb
        linarith
  · intro R h
    rw [mk_rate_limiter]
    simp only
    rw [if_neg (not_lt.mpr h)]
  · intro st now h0 hle
    rw [RateLimiter.acquire, if_neg (by rw [h0]; linarith)]

/-- Witness for C7: with 5 requests per second, two back-to-back
acquires are spaced by at least the 1/5-second interval. -/
theorem c7_witness :
    (0 : ℚ) ≤ (mk_rate_limiter 5).interval ∧
    ((mk_rate_limiter 5).acquire 0).1 ≤ 1 ∧
    (((mk_rate_limiter 5).acquire 0).2.acquire 1).1 -
        ((mk_rate_limiter 5).acquire 0).1 ≥ (mk_rate_limiter 5).interval := by
  have hint : (mk_rate_limiter 5).interval = 1 / 5 := by
    rw [mk_rate_limiter]; norm_num
  have h1 : ((mk_rate_limiter 5).acquire 0).1 = 1 / 5 := by
    rw [mk_rate_limiter, RateLimiter.acquire]
    norm_num
  refine ⟨by rw [hint]; norm_num, by rw [h1]; norm_num, ?_⟩
  have := c7_pacing_gate_spacing.2.1 (mk_rate_limiter 5) 0 1
    ((mk_rate_limiter 5).acquire 0).1 ((mk_rate_limiter 5).acquire 0).2
    (by rw [hint]; norm_num) rfl (by rw [h1]; norm_num)
  simpa using this

/-- Claim C8: at every state reachable from the freshly constructed
concurrency gate, the number of simultaneously held permits never
exceeds the configured maximum (and the maximum itself never changes):
an acquire completes only while a permit is free, and `async with`
releases the held permit on every exit path. -/
theorem c8_semaphore_bound (n : Nat) (s : Semaphore)
    (h : SemReachable n s) : s.held ≤ s.max_permits ∧ s.max_permits = n := by
  induction h with
  | init => exact ⟨Nat.zero_le n, rfl⟩
  | step hreach hstep ih =>
      cases hstep with
      | acquire h => exact ⟨h, ih.2⟩
      | release h =>
          refine ⟨?_, ih.2⟩
          have h1 := ih.1
          dsimp only
          omega

/-- Witness for C8: with the default bound of 10 and one permit
acquired, the held count stays within the bound. -/
theorem c8_witness :
    (⟨10, 1⟩ : Semaphore).held ≤ (⟨10, 1⟩ : Semaphore).max_permits :=
  (c8_semaphore_bound 10 ⟨10, 1⟩
    (SemReachable.init.step (SemStep.acquire ⟨10, 0⟩ (by decide)))).1

/-- Counterexample to C3 as stated: a run with a missing access token
(and likewise one whose sink probe fails) aborts before any crawling
begins and logs the reason, but the process exit code is 0 — the code
takes a plain `return`, not a non-zero exit. -/
theorem c3_counterexample :
    (main_run ⟨"", true, []⟩).exit_code = 0 ∧
    (main_run ⟨"", true, []⟩).crawl_started = false ∧
    (main_run ⟨"", true, []⟩).logs = [.error_no_token] ∧
    (main_run ⟨"token", false, []⟩).exit_code = 0 ∧
    (main_run ⟨"token", false, []⟩).crawl_started = false := by
  refine ⟨rfl, rfl, rfl, rfl, rfl⟩

/-- Claim C3 amended: if the access token is missing, or the sink
liveness probe fails during startup, the process aborts with a logged
reason before any crawling begins — but it exits with code 0 (a plain
return), not a non-zero exit code; indeed every modeled run exits 0,
`sys.exit(1)` being reachable only from the outer unexpected-exception
handler. -/
theorem c3_startup_abort_zero_exit (env : MainEnv) :
    (env.access_token.isEmpty = true →
      main_run env = ⟨0, false, [.error_no_token]⟩)
    ∧ (env.access_token.isEmpty = false → env.sink_ok = false →
      main_run env = ⟨0, false, [.error_sink_init]⟩)
    ∧ (main_run env).exit_code = 0 := by
  refine ⟨?_, ?_, ?_⟩
  · intro h
    rw [main_run, if_pos h]
  · intro h1 h2
    rw [main_run, if_neg (by simp [h1]), if_pos (by simp [h2])]
  · rw [main_run]
    split_ifs <;> rfl

/-- Witness for C3: the amended theorem applied to the token-less
environment. -/
theorem c3_witness :
    main_run ⟨"", true, []⟩ = ⟨0, false, [.error_no_token]⟩ :=
  (c3_startup_abort_zero_exit ⟨"", true, []⟩).1 rfl
